import Mathlib

/-!
Verification of the label-export backend's geometric core.

This file gives a shallow embedding, over exact rationals, of the
sheet-packing engine, text-fit heuristic, hole planner, SVG path
parser, cubic-curve flattener and filename derivation found in the
TypeScript sources (`lib/dxf`, `lib/pdf`, `lib/trace`), and proves the
spec-level properties about them.  JavaScript `number` values are
modelled as `ℚ` (all operations involved are exact on the inputs the
theorems exercise); JS falsy-defaulting `a || b` on numbers is modelled
as `if a = 0 then b else a`, and on strings as `if a = "" then b else a`.
-/

namespace LabelExport

/-- One text line of a label (source interface `LabelLine`).  The
`spacingTopMm`/`spacingLeftMm` fields are never read by any embedded
function and are omitted. -/
structure LabelLine where
  text : String
  textSizeMm : ℚ
  deriving DecidableEq, Repr

/-- Hole shape (source union type `"circle" | "square"`). -/
inductive HoleType where
  | circle
  | square
  deriving DecidableEq, Repr

/-- A label description (source interface `LabelSetup`).  `labelQuantity`
is an integer here; the expansion loop `for (let i = 0; i < qty; i++)`
runs `qty.toNat` times. -/
structure LabelSetup where
  name : Option String := none
  labelLengthMm : ℚ
  labelHeightMm : ℚ
  labelThicknessMm : ℚ
  labelColourBackground : String
  textColour : String
  labelQuantity : ℤ
  style : String
  noOfHoles : ℕ
  holeSizeMm : ℚ
  holeDistanceMm : ℚ
  holeType : Option HoleType := none
  holeLengthMm : Option ℚ := none
  holeHeightMm : Option ℚ := none
  lines : List LabelLine := []
  deriving DecidableEq, Repr

/-- Sheet geometry (source interface `SheetConfig`). -/
structure SheetConfig where
  width : ℚ
  height : ℚ
  margin : ℚ
  gap : ℚ
  deriving DecidableEq, Repr

/-- A placed label on a sheet (source interface `PlacedLabel` in the DXF
module; the packer always stores `quantity: 1`). -/
structure PlacedLabel where
  setup : LabelSetup
  x : ℚ
  y : ℚ
  quantity : ℕ
  deriving DecidableEq, Repr

/-- A packed sheet (source interface `DxfSheet`). -/
structure DxfSheet where
  pageNumber : ℕ
  labels : List PlacedLabel
  deriving DecidableEq, Repr, Inhabited

/-- Source constant `DEFAULT_SHEET`. -/
def DEFAULT_SHEET : SheetConfig :=
  { width := 600, height := 300, margin := 0, gap := 0 }

/-- The expansion loop at the top of `arrangeLabelsOnSheets`:
`const qty = setup.labelQuantity || 1; for (i < qty) allLabels.push(setup)`.
Note that JS `0 || 1` is `1`, so a quantity of zero expands to one copy. -/
def expandQuantities (setups : List LabelSetup) : List LabelSetup :=
  setups.flatMap fun s =>
    List.replicate (if s.labelQuantity = 0 then 1 else s.labelQuantity).toNat s

/-- The mutable state of the packing loop in `arrangeLabelsOnSheets`. -/
structure ArrangeState where
  sheets : List DxfSheet
  currentSheet : DxfSheet
  currentX : ℚ
  currentY : ℚ
  rowHeight : ℚ
  deriving DecidableEq, Repr

/-- One iteration of the packing loop of `arrangeLabelsOnSheets`
(seed row height, row wrap, sheet overflow, record placement).  The
oversized-label branch only logs a warning in the source and is elided. -/
def placeLabel (sheet : SheetConfig) (st : ArrangeState) (label : LabelSetup) :
    ArrangeState :=
  let labelWidth := label.labelLengthMm
  let labelHeight := label.labelHeightMm
  let st0 :=
    if st.rowHeight = 0 then { st with rowHeight := labelHeight } else st
  let st1 :=
    if st0.currentX + labelWidth > sheet.width - sheet.margin then
      { st0 with
        currentX := sheet.margin
        currentY := st0.currentY - (st0.rowHeight + sheet.gap)
        rowHeight := labelHeight }
    else st0
  let st2 :=
    if st1.currentY - labelHeight < sheet.margin then
      let sheets' :=
        if st1.currentSheet.labels.isEmpty then st1.sheets
        else st1.sheets ++ [st1.currentSheet]
      { sheets := sheets'
        currentSheet := { pageNumber := sheets'.length + 1, labels := [] }
        currentX := sheet.margin
        currentY := sheet.height - sheet.margin
        rowHeight := labelHeight }
    else st1
  { st2 with
    currentSheet :=
      { st2.currentSheet with
        labels := st2.currentSheet.labels ++
          [{ setup := label, x := st2.currentX,
             y := st2.currentY - labelHeight, quantity := 1 }] }
    rowHeight := max st2.rowHeight labelHeight
    currentX := st2.currentX + labelWidth + sheet.gap }

/-- The row-height seeding block of the loop body
(`if (rowHeight === 0) rowHeight = labelHeight`), as a standalone stage
for the invariant proofs; `placeLabel` is definitionally the
composition of the four stages. -/
def seedStage (st : ArrangeState) (labelHeight : ℚ) : ArrangeState :=
  if st.rowHeight = 0 then { st with rowHeight := labelHeight } else st

/-- The row-wrap block of the loop body. -/
def wrapStage (sheet : SheetConfig) (st : ArrangeState)
    (labelWidth labelHeight : ℚ) : ArrangeState :=
  if st.currentX + labelWidth > sheet.width - sheet.margin then
    { st with
      currentX := sheet.margin
      currentY := st.currentY - (st.rowHeight + sheet.gap)
      rowHeight := labelHeight }
  else st

/-- The sheet-overflow block of the loop body. -/
def overflowStage (sheet : SheetConfig) (st : ArrangeState)
    (labelHeight : ℚ) : ArrangeState :=
  if st.currentY - labelHeight < sheet.margin then
    let sheets' :=
      if st.currentSheet.labels.isEmpty then st.sheets
      else st.sheets ++ [st.currentSheet]
    { sheets := sheets'
      currentSheet := { pageNumber := sheets'.length + 1, labels := [] }
      currentX := sheet.margin
      currentY := sheet.height - sheet.margin
      rowHeight := labelHeight }
  else st

/-- The placement-recording block of the loop body. -/
def recordStage (sheet : SheetConfig) (st : ArrangeState)
    (label : LabelSetup) : ArrangeState :=
  { st with
    currentSheet :=
      { st.currentSheet with
        labels := st.currentSheet.labels ++
          [{ setup := label, x := st.currentX,
             y := st.currentY - label.labelHeightMm, quantity := 1 }] }
    rowHeight := max st.rowHeight label.labelHeightMm
    currentX := st.currentX + label.labelLengthMm + sheet.gap }

/-- Initial state of the packing loop. -/
def initialArrangeState (sheet : SheetConfig) : ArrangeState :=
  { sheets := []
    currentSheet := { pageNumber := 1, labels := [] }
    currentX := sheet.margin
    currentY := sheet.height - sheet.margin
    rowHeight := 0 }

/-- Source function `arrangeLabelsOnSheets` (DXF module): shelf packing
of the quantity-expanded label list. -/
def arrangeLabelsOnSheets (setups : List LabelSetup)
    (sheet : SheetConfig := DEFAULT_SHEET) : List DxfSheet :=
  let final := (expandQuantities setups).foldl (placeLabel sheet)
    (initialArrangeState sheet)
  if final.currentSheet.labels.isEmpty then final.sheets
  else final.sheets ++ [final.currentSheet]

/-- A placed label in the PDF module (source interface `PlacedLabel`
there; it has no `quantity` field). -/
structure PdfPlaced where
  setup : LabelSetup
  x : ℚ
  y : ℚ
  deriving DecidableEq, Repr

/-- The mutable state of the packing loop in the PDF module's
`arrangeLabelsOnSheets` copy (sheets are bare label lists there). -/
structure PdfArrangeState where
  sheets : List (List PdfPlaced)
  currentSheet : List PdfPlaced
  currentX : ℚ
  currentY : ℚ
  rowHeight : ℚ
  deriving DecidableEq, Repr

/-- One iteration of the PDF module's packing loop (textually the same
algorithm as the DXF one, without page numbers). -/
def placeLabelPdf (sheet : SheetConfig) (st : PdfArrangeState)
    (label : LabelSetup) : PdfArrangeState :=
  let labelWidth := label.labelLengthMm
  let labelHeight := label.labelHeightMm
  let st0 :=
    if st.rowHeight = 0 then { st with rowHeight := labelHeight } else st
  let st1 :=
    if st0.currentX + labelWidth > sheet.width - sheet.margin then
      { st0 with
        currentX := sheet.margin
        currentY := st0.currentY - (st0.rowHeight + sheet.gap)
        rowHeight := labelHeight }
    else st0
  let st2 :=
    if st1.currentY - labelHeight < sheet.margin then
      { sheets :=
          if st1.currentSheet.isEmpty then st1.sheets
          else st1.sheets ++ [st1.currentSheet]
        currentSheet := []
        currentX := sheet.margin
        currentY := sheet.height - sheet.margin
        rowHeight := labelHeight }
    else st1
  { st2 with
    currentSheet := st2.currentSheet ++
      [{ setup := label, x := st2.currentX, y := st2.currentY - labelHeight }]
    rowHeight := max st2.rowHeight labelHeight
    currentX := st2.currentX + labelWidth + sheet.gap }

/-- Row-height seeding block of the PDF module's loop body. -/
def seedStagePdf (st : PdfArrangeState) (labelHeight : ℚ) : PdfArrangeState :=
  if st.rowHeight = 0 then { st with rowHeight := labelHeight } else st

/-- Row-wrap block of the PDF module's loop body. -/
def wrapStagePdf (sheet : SheetConfig) (st : PdfArrangeState)
    (labelWidth labelHeight : ℚ) : PdfArrangeState :=
  if st.currentX + labelWidth > sheet.width - sheet.margin then
    { st with
      currentX := sheet.margin
      currentY := st.currentY - (st.rowHeight + sheet.gap)
      rowHeight := labelHeight }
  else st

/-- Sheet-overflow block of the PDF module's loop body. -/
def overflowStagePdf (sheet : SheetConfig) (st : PdfArrangeState)
    (labelHeight : ℚ) : PdfArrangeState :=
  if st.currentY - labelHeight < sheet.margin then
    { sheets :=
        if st.currentSheet.isEmpty then st.sheets
        else st.sheets ++ [st.currentSheet]
      currentSheet := []
      currentX := sheet.margin
      currentY := sheet.height - sheet.margin
      rowHeight := labelHeight }
  else st

/-- Placement-recording block of the PDF module's loop body. -/
def recordStagePdf (sheet : SheetConfig) (st : PdfArrangeState)
    (label : LabelSetup) : PdfArrangeState :=
  { st with
    currentSheet := st.currentSheet ++
      [{ setup := label, x := st.currentX,
         y := st.currentY - label.labelHeightMm }]
    rowHeight := max st.rowHeight label.labelHeightMm
    currentX := st.currentX + label.labelLengthMm + sheet.gap }

/-- Source function `arrangeLabelsOnSheets` (PDF module copy). -/
def arrangeLabelsOnSheetsPdf (setups : List LabelSetup)
    (sheet : SheetConfig := DEFAULT_SHEET) : List (List PdfPlaced) :=
  let final := (expandQuantities setups).foldl (placeLabelPdf sheet)
    { sheets := [], currentSheet := [], currentX := sheet.margin,
      currentY := sheet.height - sheet.margin, rowHeight := 0 }
  if final.currentSheet.isEmpty then final.sheets
  else final.sheets ++ [final.currentSheet]

/-! ### Text-fit heuristic (DXF module) -/

/-- Source function `estimateTextWidth`:
`text.length * textHeight * 0.55`. -/
def estimateTextWidth (text : String) (textHeight : ℚ) : ℚ :=
  let avgCharWidthRatio : ℚ := 55 / 100
  text.length * textHeight * avgCharWidthRatio

/-- Source function `calculateFitTextHeight` (DXF module). -/
def calculateFitTextHeight (text : String) (maxWidth desiredHeight : ℚ)
    (padding : ℚ := 2) : ℚ :=
  let availableWidth := maxWidth - padding * 2
  let estimatedWidth := estimateTextWidth text desiredHeight
  if estimatedWidth ≤ availableWidth then desiredHeight
  else
    let scaleFactor := availableWidth / estimatedWidth
    let newHeight := desiredHeight * scaleFactor
    max (1 / 2) newHeight

/-- The inline text-fit code in `generateSheetPdf` (PDF module):
`estimatedWidth = len * h * 0.5;` and on overflow
`h = (width - padding*2) / (len * 0.5)`, floored at `0.5`.  `padding`
is the local constant `2`. -/
def pdfFitTextHeight (text : String) (width desiredHeight : ℚ) : ℚ :=
  let padding : ℚ := 2
  let estimatedWidth : ℚ := text.length * desiredHeight * (1 / 2)
  if estimatedWidth > width - padding * 2 then
    max (1 / 2) ((width - padding * 2) / (text.length * (1 / 2)))
  else desiredHeight

/-! ### Hole pattern planner

Both `generateSheetDxf` and `generateSheetPdf` contain the same hole
placement block; the centres handed to `drawHole` are embedded here
relative to the label's lower-left corner `(x, y)` (the source adds
`x`/`y` to every coordinate). -/

/-- JS truthiness of an optional numeric field (`undefined`, `0` are
falsy). -/
def jsTruthy (v : Option ℚ) : Bool :=
  match v with
  | none => false
  | some q => q ≠ 0

/-- The guard
`setup.noOfHoles > 0 && (setup.holeSizeMm > 0 || (setup.holeLengthMm && setup.holeHeightMm))`
around the hole-drawing block. -/
def emitsHoles (setup : LabelSetup) : Bool :=
  0 < setup.noOfHoles &&
    (0 < setup.holeSizeMm || (jsTruthy setup.holeLengthMm && jsTruthy setup.holeHeightMm))

/-- `const holeDistance = setup.holeDistanceMm || 5`. -/
def effHoleDistance (setup : LabelSetup) : ℚ :=
  if setup.holeDistanceMm = 0 then 5 else setup.holeDistanceMm

/-- The centres passed to `drawHole` for a label of footprint
`width × height`, by hole count (the `if/else if` chain over
`setup.noOfHoles`); the final branch is the
`for (i = 0; i < noOfHoles; i++)` loop with
`spacing = (width - 2*holeDistance) / (noOfHoles - 1)`. -/
def holeCenters (noOfHoles : ℕ) (holeDistance width height : ℚ) :
    List (ℚ × ℚ) :=
  if noOfHoles = 1 then [(holeDistance, height / 2)]
  else if noOfHoles = 2 then
    [(holeDistance, height / 2), (width - holeDistance, height / 2)]
  else if noOfHoles = 4 then
    [(holeDistance, holeDistance),
     (width - holeDistance, holeDistance),
     (holeDistance, height - holeDistance),
     (width - holeDistance, height - holeDistance)]
  else
    let spacing := (width - 2 * holeDistance) / ((noOfHoles : ℚ) - 1)
    (List.range noOfHoles).map fun i => (holeDistance + i * spacing, height / 2)

/-- Hole centres emitted for one placed label, relative to its
lower-left corner: nothing unless the `emitsHoles` guard passes. -/
def labelHoles (setup : LabelSetup) : List (ℚ × ℚ) :=
  if emitsHoles setup then
    holeCenters setup.noOfHoles (effHoleDistance setup)
      setup.labelLengthMm setup.labelHeightMm
  else []

/-! ### Cubic Bézier flattening (`lib/trace`) -/

/-- Source function `sampleBezier`: the loop `for (i = 1; i <= segments)`
evaluating the cubic blending polynomial at `t = i / segments`, written
exactly as in the source (`mt3*p0 + 3*mt2*t*p1 + 3*mt*t2*p2 + t3*p3`).
The source default for `segments` is `10`. -/
def sampleBezier (p0 p1 p2 p3 : ℚ × ℚ) (segments : ℕ := 10) :
    List (ℚ × ℚ) :=
  (List.range segments).map fun j =>
    let t : ℚ := (j + 1 : ℕ) / segments
    let t2 := t * t
    let t3 := t2 * t
    let mt := 1 - t
    let mt2 := mt * mt
    let mt3 := mt2 * mt
    (mt3 * p0.1 + 3 * mt2 * t * p1.1 + 3 * mt * t2 * p2.1 + t3 * p3.1,
     mt3 * p0.2 + 3 * mt2 * t * p1.2 + 3 * mt * t2 * p2.2 + t3 * p3.2)

/-- The textbook cubic Bézier point at parameter `t` (used to state the
spec's "standard cubic blending polynomial"; not used by the embedded
code itself). -/
def cubicBezierPoint (p0 p1 p2 p3 : ℚ × ℚ) (t : ℚ) : ℚ × ℚ :=
  ((1 - t) ^ 3 * p0.1 + 3 * (1 - t) ^ 2 * t * p1.1 +
     3 * (1 - t) * t ^ 2 * p2.1 + t ^ 3 * p3.1,
   (1 - t) ^ 3 * p0.2 + 3 * (1 - t) ^ 2 * t * p1.2 +
     3 * (1 - t) * t ^ 2 * p2.2 + t ^ 3 * p3.2)

/-! ### SVG path command parser (`lib/trace`, `parseSvgPath`)

The source tokenizes with the regex
`([MmLlHhVvCcSsQqTtAaZz])([^MmLlHhVvCcSsQqTtAaZz]*)` applied
repeatedly: every character of the alphabet starts a group, every
character outside it belongs to the argument run of the preceding
group (characters before the first alphabet letter match no group and
are discarded).  `lexGroups` below is that scan, written as a single
structural pass carrying the group under construction. -/

/-- The command alphabet of the tokenizing regex. -/
def svgAlphabet : List Char :=
  ['M', 'm', 'L', 'l', 'H', 'h', 'V', 'v', 'C', 'c',
   'S', 's', 'Q', 'q', 'T', 't', 'A', 'a', 'Z', 'z']

/-- The letters actually handled by the `switch` in `parseSvgPath`. -/
def handledLetters : List Char :=
  ['M', 'm', 'L', 'l', 'H', 'h', 'V', 'v', 'C', 'c', 'Z', 'z']

/-- Lexer worker: `cur` is the letter and (reversed) argument run of the
group being scanned, if any. -/
def lexAux (cur : Option (Char × List Char)) :
    List Char → List (Char × List Char)
  | [] =>
    match cur with
    | none => []
    | some (l, as) => [(l, as.reverse)]
  | c :: rest =>
    if c ∈ svgAlphabet then
      (match cur with
       | none => []
       | some (l, as) => [(l, as.reverse)]) ++ lexAux (some (c, [])) rest
    else
      match cur with
      | none => lexAux none rest
      | some (l, as) => lexAux (some (l, c :: as)) rest

/-- All `(letter, argument run)` groups matched by the regex scan. -/
def lexGroups (s : List Char) : List (Char × List Char) :=
  lexAux none s

/-- A separator in the argument-splitting regex `[\s,]+`. -/
def isSepChar (c : Char) : Bool :=
  c = ' ' || c = ',' || c = '\t' || c = '\n' || c = '\r'

/-- `.trim().split(/[\s,]+/).filter(s => s !== "")`: the maximal
non-separator chunks of the run, in order.  `acc` holds the (reversed)
chunk under construction. -/
def splitArgsAux : List Char → List Char → List (List Char)
  | [], acc => if acc.isEmpty then [] else [acc.reverse]
  | c :: rest, acc =>
    if isSepChar c then
      (if acc.isEmpty then [] else [acc.reverse]) ++ splitArgsAux rest []
    else splitArgsAux rest (c :: acc)

/-- Value of a digit string (most significant first). -/
def digitsToNat (l : List Char) : ℕ :=
  l.foldl (fun n c => 10 * n + (c.toNat - '0'.toNat)) 0

/-- JS `Number(chunk)` on the non-empty chunks produced above, modelled
for the decimal grammar `[+-]? digits [. digits]? [eE [+-]? digits]?`
(the only shapes the tracer emits); `none` is JS `NaN`, returned for
any chunk outside that grammar. -/
def parseNum (s : List Char) : Option ℚ :=
  let signAndRest : ℚ × List Char :=
    match s with
    | '-' :: rest => (-1, rest)
    | '+' :: rest => (1, rest)
    | _ => (1, s)
  let sign := signAndRest.1
  let s1 := signAndRest.2
  let intDigits := s1.takeWhile Char.isDigit
  let s2 := s1.dropWhile Char.isDigit
  let fracAndRest : List Char × List Char :=
    match s2 with
    | '.' :: rest => (rest.takeWhile Char.isDigit, rest.dropWhile Char.isDigit)
    | _ => ([], s2)
  let fracDigits := fracAndRest.1
  let s3 := fracAndRest.2
  if intDigits.isEmpty && fracDigits.isEmpty then none
  else
    let mantissa : ℚ := sign *
      ((digitsToNat intDigits : ℚ) +
        (digitsToNat fracDigits : ℚ) / 10 ^ fracDigits.length)
    match s3 with
    | [] => some mantissa
    | e :: rest =>
      if e = 'e' || e = 'E' then
        let esignAndRest : ℤ × List Char :=
          match rest with
          | '-' :: r => (-1, r)
          | '+' :: r => (1, r)
          | _ => (1, rest)
        let eDigits := esignAndRest.2.takeWhile Char.isDigit
        let r2 := esignAndRest.2.dropWhile Char.isDigit
        if eDigits.isEmpty || !r2.isEmpty then none
        else some (mantissa * (10 : ℚ) ^ (esignAndRest.1 * digitsToNat eDigits))
      else none

/-- One parsed path command (source interface `PathCommand`: a record
with a `type` letter and optional numeric fields).  `none` stands for
an absent (`undefined`) or `NaN` field. -/
structure PathCmd where
  type : Char
  x : Option ℚ := none
  y : Option ℚ := none
  x1 : Option ℚ := none
  y1 : Option ℚ := none
  x2 : Option ℚ := none
  y2 : Option ℚ := none
  deriving DecidableEq, Repr

/-- The `for (i = 0; i < args.length; i += 2)` grouping: a trailing odd
argument is paired with `undefined`. -/
def pairUp : List (Option ℚ) → List (Option ℚ × Option ℚ)
  | [] => []
  | [a] => [(a, none)]
  | a :: b :: rest => (a, b) :: pairUp rest

/-- A six-tuple of curve arguments. -/
def Six : Type :=
  Option ℚ × Option ℚ × Option ℚ × Option ℚ × Option ℚ × Option ℚ

/-- The `for (i = 0; i < args.length; i += 6)` grouping for curves, a
short trailing chunk padded with `undefined`. -/
def sixUp : List (Option ℚ) → List Six
  | [] => []
  | [a] => [(a, none, none, none, none, none)]
  | [a, b] => [(a, b, none, none, none, none)]
  | [a, b, c] => [(a, b, c, none, none, none)]
  | [a, b, c, d] => [(a, b, c, d, none, none)]
  | [a, b, c, d, e] => [(a, b, c, d, e, none)]
  | a :: b :: c :: d :: e :: f :: rest => (a, b, c, d, e, f) :: sixUp rest

/-- The `switch (type)` of `parseSvgPath`: expansion of one regex group
into commands (many per group when the argument run is long); letters
with no `case` produce nothing. -/
def expandGroup (g : Char × List Char) : List PathCmd :=
  let args := (splitArgsAux g.2 []).map parseNum
  if g.1 = 'M' ∨ g.1 = 'm' ∨ g.1 = 'L' ∨ g.1 = 'l' then
    (pairUp args).map fun p => { type := g.1, x := p.1, y := p.2 }
  else if g.1 = 'H' ∨ g.1 = 'h' then
    args.map fun a => { type := g.1, x := a }
  else if g.1 = 'V' ∨ g.1 = 'v' then
    args.map fun a => { type := g.1, y := a }
  else if g.1 = 'C' ∨ g.1 = 'c' then
    (sixUp args).map fun s =>
      { type := g.1, x1 := s.1, y1 := s.2.1, x2 := s.2.2.1, y2 := s.2.2.2.1,
        x := s.2.2.2.2.1, y := s.2.2.2.2.2 }
  else if g.1 = 'Z' ∨ g.1 = 'z' then
    [{ type := g.1 }]
  else []

/-- Source function `parseSvgPath`. -/
def parseSvgPath (d : String) : List PathCmd :=
  (lexGroups d.toList).flatMap expandGroup

/-! ### Path flattening (`lib/trace`, `svgPathToPolylinePoints`) -/

/-- `const transformY = (y) => (flipY ? height - y : y)`. -/
def transformY (flipY : Bool) (height y : ℚ) : ℚ :=
  if flipY then height - y else y

/-- The mutable state of the command walk in `svgPathToPolylinePoints`. -/
structure TraceState where
  polylines : List (List (ℚ × ℚ))
  current : List (ℚ × ℚ)
  currentX : ℚ
  currentY : ℚ
  startX : ℚ
  startY : ℚ
  deriving DecidableEq, Repr

/-- One iteration of the `for (const cmd of commands)` switch.  The
source reads fields with the non-null assertion `cmd.x!`; an absent
field is modelled as `0` here (no theorem below exercises a command
stream with absent fields). -/
def traceStep (flipY : Bool) (height : ℚ) (st : TraceState) (cmd : PathCmd) :
    TraceState :=
  if cmd.type = 'M' then
    let px := cmd.x.getD 0
    let py := cmd.y.getD 0
    { st with
      polylines := st.polylines ++ (if st.current.isEmpty then [] else [st.current]),
      currentX := px, currentY := py, startX := px, startY := py,
      current := [(px, transformY flipY height py)] }
  else if cmd.type = 'm' then
    let px := st.currentX + cmd.x.getD 0
    let py := st.currentY + cmd.y.getD 0
    { st with
      polylines := st.polylines ++ (if st.current.isEmpty then [] else [st.current]),
      currentX := px, currentY := py, startX := px, startY := py,
      current := [(px, transformY flipY height py)] }
  else if cmd.type = 'L' then
    let px := cmd.x.getD 0
    let py := cmd.y.getD 0
    { st with
      currentX := px, currentY := py,
      current := st.current ++ [(px, transformY flipY height py)] }
  else if cmd.type = 'l' then
    let px := st.currentX + cmd.x.getD 0
    let py := st.currentY + cmd.y.getD 0
    { st with
      currentX := px, currentY := py,
      current := st.current ++ [(px, transformY flipY height py)] }
  else if cmd.type = 'H' then
    let px := cmd.x.getD 0
    { st with
      currentX := px,
      current := st.current ++ [(px, transformY flipY height st.currentY)] }
  else if cmd.type = 'h' then
    let px := st.currentX + cmd.x.getD 0
    { st with
      currentX := px,
      current := st.current ++ [(px, transformY flipY height st.currentY)] }
  else if cmd.type = 'V' then
    let py := cmd.y.getD 0
    { st with
      currentY := py,
      current := st.current ++ [(st.currentX, transformY flipY height py)] }
  else if cmd.type = 'v' then
    let py := st.currentY + cmd.y.getD 0
    { st with
      currentY := py,
      current := st.current ++ [(st.currentX, transformY flipY height py)] }
  else if cmd.type = 'C' then
    let pts := sampleBezier
      (st.currentX, transformY flipY height st.currentY)
      (cmd.x1.getD 0, transformY flipY height (cmd.y1.getD 0))
      (cmd.x2.getD 0, transformY flipY height (cmd.y2.getD 0))
      (cmd.x.getD 0, transformY flipY height (cmd.y.getD 0)) 12
    { st with
      current := st.current ++ pts,
      currentX := cmd.x.getD 0, currentY := cmd.y.getD 0 }
  else if cmd.type = 'c' then
    let pts := sampleBezier
      (st.currentX, transformY flipY height st.currentY)
      (st.currentX + cmd.x1.getD 0,
        transformY flipY height (st.currentY + cmd.y1.getD 0))
      (st.currentX + cmd.x2.getD 0,
        transformY flipY height (st.currentY + cmd.y2.getD 0))
      (st.currentX + cmd.x.getD 0,
        transformY flipY height (st.currentY + cmd.y.getD 0)) 12
    { st with
      current := st.current ++ pts,
      currentX := st.currentX + cmd.x.getD 0,
      currentY := st.currentY + cmd.y.getD 0 }
  else if cmd.type = 'Z' ∨ cmd.type = 'z' then
    { st with
      current := st.current ++ [(st.startX, transformY flipY height st.startY)],
      currentX := st.startX, currentY := st.startY }
  else st

/-- Source function `svgPathToPolylinePoints` (defaults
`flipY = true`, `height = 0`): parse, walk, and flush the last
polyline if non-empty. -/
def svgPathToPolylinePoints (d : String) (flipY : Bool := true)
    (height : ℚ := 0) : List (List (ℚ × ℚ)) :=
  let final := (parseSvgPath d).foldl (traceStep flipY height)
    { polylines := [], current := [], currentX := 0, currentY := 0,
      startX := 0, startY := 0 }
  final.polylines ++ (if final.current.isEmpty then [] else [final.current])

/-! ### Material grouping and export filenames -/

/-- JS `a || b` on strings (empty string is falsy). -/
def jsStrOr (s d : String) : String := if s = "" then d else s

/-- The components of the group key built by `getGroupKey` (identical
in both modules).  The source joins them into the string
`` `${text}|${bg}|${thickness}|${style}` `` and splits that string
again at the use site; the embedding keeps the components. -/
structure GroupKey where
  textColour : String
  bgColour : String
  thickness : ℚ
  style : String
  deriving DecidableEq, Repr

/-- Source `getGroupKey`, with its `|| "Black"` / `|| "White"` /
`|| 0.8` / `|| "Adhesive"` defaults. -/
def getGroupKey (setup : LabelSetup) : GroupKey :=
  { textColour := jsStrOr setup.textColour "Black"
    bgColour := jsStrOr setup.labelColourBackground "White"
    thickness := if setup.labelThicknessMm = 0 then 4 / 5
                 else setup.labelThicknessMm
    style := jsStrOr setup.style "Adhesive" }

/-- One step of the grouping loop (`groups` is a JS `Map`, which
iterates in key-insertion order). -/
def addToGroups (gs : List (GroupKey × List LabelSetup)) (s : LabelSetup) :
    List (GroupKey × List LabelSetup) :=
  if gs.any fun g => g.1 = getGroupKey s then
    gs.map fun g => if g.1 = getGroupKey s then (g.1, g.2 ++ [s]) else g
  else gs ++ [(getGroupKey s, [s])]

/-- The grouping loop shared by `generateDxfFiles` and
`generatePdfFiles`. -/
def groupSetups (setups : List LabelSetup) : List (GroupKey × List LabelSetup) :=
  setups.foldl addToGroups []

/-- `String(pageNumber).padStart(2, "0")`. -/
def padStart2 (n : ℕ) : String :=
  if (toString n).length < 2 then "0" ++ toString n else toString n

/-- `const styleSuffix = style === "Non Adhesive" ? " Non AD" : ""`. -/
def styleSuffix (style : String) : String :=
  if style = "Non Adhesive" then " Non AD" else ""

/-- The thickness component as interpolated into the filename.  The
source interpolates the float `parseFloat(thicknessStr)`; on integral
thicknesses that prints the bare integer, as `ℚ`'s `toString` does
(the theorems below only evaluate filenames at integral
thicknesses). -/
def thicknessStr (q : ℚ) : String := toString q

/-- The DXF filename template of `generateDxfFiles`. -/
def dxfFilename (k : GroupKey) (pageNumber : ℕ) : String :=
  "MLA " ++ k.textColour ++ " on " ++ k.bgColour ++ " " ++
    thicknessStr k.thickness ++ "mm" ++ styleSuffix k.style ++ " " ++
    padStart2 pageNumber ++ ".dxf"

/-- The PDF filename template of `generatePdfFiles`. -/
def pdfFilename (k : GroupKey) (pageNumber : ℕ) : String :=
  "MLA " ++ k.textColour ++ " on " ++ k.bgColour ++ " " ++
    thicknessStr k.thickness ++ "mm" ++ styleSuffix k.style ++ " " ++
    padStart2 pageNumber ++ ".pdf"

/-- The filenames produced by `generateDxfFiles` (the file contents are
built by the external DXF writer and are not modelled): per group, one
file per sheet of `arrangeLabelsOnSheets`, numbered by the sheet's
`pageNumber` field. -/
def generateDxfFilenames (setups : List LabelSetup)
    (sheetConfig : SheetConfig := DEFAULT_SHEET) : List String :=
  (groupSetups setups).flatMap fun g =>
    (arrangeLabelsOnSheets g.2 sheetConfig).map fun sheet =>
      dxfFilename g.1 sheet.pageNumber

/-- The filenames produced by `generatePdfFiles`: per group, one file
per sheet, numbered `i + 1` by the loop index `i` over the group's
sheets. -/
def generatePdfFilenames (setups : List LabelSetup)
    (sheetConfig : SheetConfig := DEFAULT_SHEET) : List String :=
  (groupSetups setups).flatMap fun g =>
    (List.range (arrangeLabelsOnSheetsPdf g.2 sheetConfig).length).map fun i =>
      pdfFilename g.1 (i + 1)

/-! ### Derived notions used by the theorems -/

/-- Width of a placed label's footprint. -/
def labelW (p : PlacedLabel) : ℚ := p.setup.labelLengthMm

/-- Height of a placed label's footprint. -/
def labelH (p : PlacedLabel) : ℚ := p.setup.labelHeightMm

/-- The interiors of the two placed labels' axis-aligned footprints
`[x, x + w] × [y, y + h]` intersect: for labels of positive width and
height these four strict inequalities say exactly that (touching along
shared edges is not an overlap). -/
def Overlap (p q : PlacedLabel) : Prop :=
  p.x < q.x + labelW q ∧ q.x < p.x + labelW p ∧
  p.y < q.y + labelH q ∧ q.y < p.y + labelH p

instance (p q : PlacedLabel) : Decidable (Overlap p q) := by
  unfold Overlap; infer_instance

/-- Total number of placed labels recorded in a packing state. -/
def placedCount (st : ArrangeState) : ℕ :=
  (st.sheets.map fun s => s.labels.length).sum + st.currentSheet.labels.length

/-- Number of copies a spec contributes to packing:
`labelQuantity || 1` iterations of the expansion loop. -/
def effectiveQuantity (s : LabelSetup) : ℕ :=
  (if s.labelQuantity = 0 then 1 else s.labelQuantity).toNat

/-- A 20×7 mm spec with quantity `q`, used in concrete instances. -/
def smallLabel (q : ℤ) : LabelSetup :=
  { labelLengthMm := 20, labelHeightMm := 7, labelThicknessMm := 4 / 5,
    labelColourBackground := "White", textColour := "Black",
    labelQuantity := q, style := "Adhesive", noOfHoles := 0,
    holeSizeMm := 0, holeDistanceMm := 0 }

/-- A 50×20 mm spec with two 3 mm holes, used in concrete instances. -/
def holedLabel : LabelSetup :=
  { labelLengthMm := 50, labelHeightMm := 20, labelThicknessMm := 1,
    labelColourBackground := "White", textColour := "Black",
    labelQuantity := 1, style := "Adhesive", noOfHoles := 2,
    holeSizeMm := 3, holeDistanceMm := 5 }

/-- The sum of the specs' requested quantities (the spec's "total
quantity"). -/
def quantitySum (setups : List LabelSetup) : ℤ :=
  (setups.map fun s => s.labelQuantity).sum

/-- Cursor x-position after `k ≥ 1` placements of 20-wide labels in a
row of 30 on the default sheet. -/
def xpos20 (k : ℕ) : ℚ := 20 * (((k - 1) % 30 + 1 : ℕ) : ℚ)

/-- Row top after `k ≥ 1` placements of 7-tall labels, 30 per row, on
the default sheet. -/
def ypos7 (k : ℕ) : ℚ := 300 - 7 * (((k - 1) / 30 : ℕ) : ℚ)

/-- A spec with integral thickness, used in the filename instances. -/
def filenameLabel : LabelSetup :=
  { labelLengthMm := 50, labelHeightMm := 20, labelThicknessMm := 2,
    labelColourBackground := "White", textColour := "Black",
    labelQuantity := 1, style := "Adhesive", noOfHoles := 0,
    holeSizeMm := 0, holeDistanceMm := 0 }

/-- A placed label as the PDF module records it (no `quantity`
field). -/
def stripPlaced (p : PlacedLabel) : PdfPlaced :=
  { setup := p.setup, x := p.x, y := p.y }

/-- A DXF packing state as the PDF module's state (page numbers and
`quantity` dropped). -/
def stripState (st : ArrangeState) : PdfArrangeState :=
  { sheets := st.sheets.map fun s => s.labels.map stripPlaced
    currentSheet := st.currentSheet.labels.map stripPlaced
    currentX := st.currentX
    currentY := st.currentY
    rowHeight := st.rowHeight }

/-- Page-numbering invariant of the packing loop: the current sheet is
numbered after the archived sheets, which carry `1, 2, …` in order. -/
def PageInv (st : ArrangeState) : Prop :=
  st.currentSheet.pageNumber = st.sheets.length + 1 ∧
  st.sheets.map (fun s => s.pageNumber) = List.range' 1 st.sheets.length

/-- Geometric invariant of the packing loop: the row height is
non-negative; every label on the current sheet has positive dimensions
and either belongs to the current row (its top at `currentY`, its right
edge left of the cursor, no taller than the row height) or lies
entirely at or above the current row top; and labels are pairwise
non-overlapping, on the current sheet and on every archived sheet. -/
def PackInv (st : ArrangeState) : Prop :=
  0 ≤ st.rowHeight ∧
  (∀ p ∈ st.currentSheet.labels,
    0 < labelW p ∧ 0 < labelH p ∧
    ((p.y + labelH p = st.currentY ∧ p.x + labelW p ≤ st.currentX ∧
        labelH p ≤ st.rowHeight) ∨ st.currentY ≤ p.y)) ∧
  st.currentSheet.labels.Pairwise (fun p q => ¬ Overlap p q) ∧
  (∀ s ∈ st.sheets, s.labels.Pairwise (fun p q => ¬ Overlap p q))

/-! ## Theorems -/

/-- C4 (amended): `calculateFitTextHeight` — the fit function of the
vector (DXF) export path — returns `desiredHeight` unchanged when
`len(text) × desiredHeight × 0.55 ≤ maxWidth − 2×padding` and otherwise
returns `max(0.5, desiredHeight × (maxWidth − 2×padding) / (len(text) ×
desiredHeight × 0.55))`; the document (PDF) export path does NOT reuse
it: its inline fit uses the constant 0.5, keeping `desiredHeight` when
`len(text) × desiredHeight × 0.5 ≤ width − 4` and otherwise returning
`max(0.5, (width − 4) / (len(text) × 0.5))`. -/
theorem text_fit_formula :
    (∀ (text : String) (maxWidth desiredHeight padding : ℚ),
      calculateFitTextHeight text maxWidth desiredHeight padding =
        if (text.length : ℚ) * desiredHeight * (55 / 100) ≤
            maxWidth - 2 * padding
        then desiredHeight
        else max (1 / 2)
          (desiredHeight * (maxWidth - 2 * padding) /
            ((text.length : ℚ) * desiredHeight * (55 / 100)))) ∧
    (∀ (text : String) (width desiredHeight : ℚ),
      pdfFitTextHeight text width desiredHeight =
        if (text.length : ℚ) * desiredHeight * (1 / 2) ≤ width - 2 * 2
        then desiredHeight
        else max (1 / 2) ((width - 2 * 2) / ((text.length : ℚ) * (1 / 2)))) := by
  constructor
  · intro text maxWidth desiredHeight padding
    simp only [calculateFitTextHeight, estimateTextWidth]
    rw [show maxWidth - padding * 2 = maxWidth - 2 * padding from by ring]
    split_ifs with h
    · rfl
    · rw [mul_div_assoc]
  · intro text width desiredHeight
    simp only [pdfFitTextHeight]
    rcases le_or_lt ((text.length : ℚ) * desiredHeight * (1 / 2))
      (width - 2 * 2) with hle | hlt
    · rw [if_neg (not_lt.mpr hle), if_pos hle]
    · rw [if_pos hlt, if_neg (not_le.mpr hlt)]

/-- C4 (counterexample): the claim says the PDF path uses the same
0.55 heuristic as the DXF path; on a 10-character line of desired
height 2 in a 12 mm label the DXF fit gives 16/11 while the PDF fit
gives 8/5. -/
theorem text_fit_paths_differ :
    calculateFitTextHeight "ABCDEFGHIJ" 12 2 2 = 16 / 11 ∧
    pdfFitTextHeight "ABCDEFGHIJ" 12 2 = 8 / 5 ∧
    pdfFitTextHeight "ABCDEFGHIJ" 12 2 ≠ calculateFitTextHeight "ABCDEFGHIJ" 12 2 2 := by
  refine ⟨?_, ?_, ?_⟩ <;> with_unfolding_all decide

/-- `jsTruthy` only holds on present values. -/
lemma jsTruthy_ne_none {v : Option ℚ} (h : jsTruthy v = true) : v ≠ none := by
  cases v with
  | none => simp [jsTruthy] at h
  | some q => simp

/-- C5: the hole planner's centres, relative to the label's lower-left
corner: count 1 → `(d, h/2)`; count 2 → `(d, h/2)` and `(w−d, h/2)`;
count 4 → the four corner insets; any other positive count → evenly
spaced holes on the horizontal midline starting at `x = d` with spacing
`(w − 2d)/(N−1)`; and holes are only emitted when `holeSizeMm > 0` or
both square hole dimensions are set. -/
theorem hole_pattern_spec :
    (∀ d w h : ℚ, holeCenters 1 d w h = [(d, h / 2)]) ∧
    (∀ d w h : ℚ, holeCenters 2 d w h = [(d, h / 2), (w - d, h / 2)]) ∧
    (∀ d w h : ℚ, holeCenters 4 d w h =
      [(d, d), (w - d, d), (d, h - d), (w - d, h - d)]) ∧
    (∀ (n : ℕ) (d w h : ℚ), 0 < n → n ≠ 1 → n ≠ 2 → n ≠ 4 →
      holeCenters n d w h = (List.range n).map fun i =>
        (d + i * ((w - 2 * d) / ((n : ℚ) - 1)), h / 2)) ∧
    (∀ setup : LabelSetup, labelHoles setup ≠ [] →
      0 < setup.holeSizeMm ∨
        (setup.holeLengthMm ≠ none ∧ setup.holeHeightMm ≠ none)) := by
  refine ⟨fun d w h => by simp [holeCenters],
    fun d w h => by simp [holeCenters],
    fun d w h => by simp [holeCenters], ?_, ?_⟩
  · intro n d w h _ h1 h2 h4
    unfold holeCenters
    rw [if_neg h1, if_neg h2, if_neg h4]
  · intro setup hne
    have hg : emitsHoles setup = true := by
      by_contra hg
      simp only [Bool.not_eq_true] at hg
      simp [labelHoles, hg] at hne
    simp only [emitsHoles, Bool.and_eq_true, Bool.or_eq_true,
      decide_eq_true_eq] at hg
    rcases hg.2 with hsz | hsq
    · exact Or.inl hsz
    · exact Or.inr ⟨jsTruthy_ne_none hsq.1, jsTruthy_ne_none hsq.2⟩

/-- C5 (witness): the general-count branch at count 3 on a 50×20 label
with distance 5, and the gate on the concrete two-hole label. -/
theorem hole_pattern_spec_witness :
    holeCenters 3 5 50 20 =
      (List.range 3).map (fun i => (5 + i * ((50 - 2 * 5) / ((3 : ℚ) - 1)), 20 / 2)) ∧
    (0 < holedLabel.holeSizeMm ∨
      (holedLabel.holeLengthMm ≠ none ∧ holedLabel.holeHeightMm ≠ none)) :=
  ⟨hole_pattern_spec.2.2.2.1 3 5 50 20 (by decide) (by decide) (by decide) (by decide),
   hole_pattern_spec.2.2.2.2 holedLabel (by with_unfolding_all decide)⟩

/-- C7: parsing and flattening `"M0,0 L10,0 L10,10 Z"` (no curves)
yields exactly one polyline of exactly 4 points
`[(0,0), (10,0), (10,10), (0,0)]` — the close command appends the
subpath's start without terminating the polyline and end of input
flushes it; with the y-flip enabled at canvas height 10 the same four
points appear flipped. -/
theorem path_round_trip_scenario :
    svgPathToPolylinePoints "M0,0 L10,0 L10,10 Z" false 0 =
      [[(0, 0), (10, 0), (10, 10), (0, 0)]] ∧
    svgPathToPolylinePoints "M0,0 L10,0 L10,10 Z" true 10 =
      [[(0, 10), (10, 10), (10, 0), (0, 10)]] := by
  constructor <;> with_unfolding_all decide

/-- C8 (amended): for every cubic Bézier and every `n ≥ 1` the
flattener emits exactly `n` points, the `i`-th being the cubic blending
polynomial at `t = (i+1)/n` (0-indexed; the start point is not
re-emitted), so the last point is `p3`; the function's own default
segment count is 10 — not 12 as claimed — and the path flattener passes
12 explicitly at its call sites. -/
theorem sampleBezier_spec (p0 p1 p2 p3 : ℚ × ℚ) (n : ℕ) (hn : 1 ≤ n) :
    (sampleBezier p0 p1 p2 p3 n).length = n ∧
    (∀ i : ℕ, i < n →
      (sampleBezier p0 p1 p2 p3 n)[i]? =
        some (cubicBezierPoint p0 p1 p2 p3 ((i + 1 : ℕ) / (n : ℚ)))) ∧
    (sampleBezier p0 p1 p2 p3 n)[n - 1]? = some p3 ∧
    sampleBezier p0 p1 p2 p3 = sampleBezier p0 p1 p2 p3 10 := by
  have hn0 : ((n : ℚ)) ≠ 0 := Nat.cast_ne_zero.mpr (by omega)
  have hget : ∀ i : ℕ, i < n →
      (sampleBezier p0 p1 p2 p3 n)[i]? =
        some (cubicBezierPoint p0 p1 p2 p3 ((i + 1 : ℕ) / (n : ℚ))) := by
    intro i hi
    unfold sampleBezier
    rw [List.getElem?_map, List.getElem?_range hi]
    simp only [Option.map_some']
    unfold cubicBezierPoint
    refine congrArg some (Prod.ext ?_ ?_) <;> · push_cast; ring
  refine ⟨by simp [sampleBezier], hget, ?_, rfl⟩
  have h1 : (sampleBezier p0 p1 p2 p3 n)[n - 1]? =
      some (cubicBezierPoint p0 p1 p2 p3 ((n - 1 + 1 : ℕ) / (n : ℚ))) :=
    hget (n - 1) (by omega)
  rw [h1]
  have h2 : ((n - 1 + 1 : ℕ) : ℚ) = (n : ℚ) := by
    congr 1
    omega
  rw [h2, div_self hn0]
  unfold cubicBezierPoint
  norm_num

/-- C8 (amended, witness): the spec theorem at `n = 2` on a concrete
curve. -/
theorem sampleBezier_spec_witness :
    (sampleBezier (0, 0) (1, 0) (1, 1) (2, 2) 2).length = 2 ∧
    (sampleBezier (0, 0) (1, 0) (1, 1) (2, 2) 2)[2 - 1]? = some (2, 2) := by
  have h := sampleBezier_spec (0, 0) (1, 0) (1, 1) (2, 2) 2 (by norm_num)
  exact ⟨h.1, h.2.2.1⟩

/-- C8 (counterexample): called without an explicit segment count,
`sampleBezier` emits 10 points, not 12 — its default is
`segments = 10`. -/
theorem sampleBezier_default_is_ten :
    (sampleBezier (0, 0) (0, 1) (1, 1) (1, 0)).length = 10 ∧ (10 : ℕ) ≠ 12 := by
  exact ⟨by simp [sampleBezier], by decide⟩

/-- Groups whose expansion is empty can be dropped from a flat-map. -/
lemma flatMap_filter_of_nil {α β : Type} (p : α → Bool) (f : α → List β)
    (hf : ∀ a, p a = false → f a = []) :
    ∀ l : List α, (l.filter p).flatMap f = l.flatMap f := by
  intro l
  induction l with
  | nil => rfl
  | cons a l ih =>
    by_cases hpa : p a = true
    · rw [List.filter_cons_of_pos hpa, List.flatMap_cons, List.flatMap_cons, ih]
    · have hpa' : p a = false := by simpa using hpa
      rw [List.filter_cons_of_neg (by simp [hpa']), List.flatMap_cons,
        hf a hpa', List.nil_append, ih]

/-- A group whose letter has no `case` in the parser's `switch` expands
to no commands. -/
lemma expandGroup_unhandled {g : Char × List Char}
    (hg : g.1 ∉ handledLetters) : expandGroup g = [] := by
  have h : g.1 ≠ 'M' ∧ g.1 ≠ 'm' ∧ g.1 ≠ 'L' ∧ g.1 ≠ 'l' ∧ g.1 ≠ 'H' ∧
      g.1 ≠ 'h' ∧ g.1 ≠ 'V' ∧ g.1 ≠ 'v' ∧ g.1 ≠ 'C' ∧ g.1 ≠ 'c' ∧
      g.1 ≠ 'Z' ∧ g.1 ≠ 'z' := by
    simpa [handledLetters, not_or] using hg
  obtain ⟨h1, h2, h3, h4, h5, h6, h7, h8, h9, h10, h11, h12⟩ := h
  simp only [expandGroup]
  rw [if_neg (by tauto), if_neg (by tauto), if_neg (by tauto),
    if_neg (by tauto), if_neg (by tauto)]

/-- C6 (amended): letters of the tokenizer's alphabet that the parser's
`switch` does not handle (`S`, `s`, `Q`, `q`, `T`, `t`, `A`, `a`)
are ignored together with their argument runs — the output equals the
parse with those groups absent.  (A character outside the alphabet is
not a group of its own: it is absorbed into the preceding group's
argument run, see the counterexample.) -/
theorem svg_parser_unhandled_letters :
    (∀ d : String,
      parseSvgPath d =
        ((lexGroups d.toList).filter fun g =>
          decide (g.1 ∈ handledLetters)).flatMap expandGroup) ∧
    (∀ g : Char × List Char, g.1 ∉ handledLetters → expandGroup g = []) := by
  constructor
  · intro d
    unfold parseSvgPath
    exact (flatMap_filter_of_nil _ _ (fun a ha =>
      expandGroup_unhandled (of_decide_eq_false ha)) _).symm
  · exact fun g hg => expandGroup_unhandled hg

/-- C6 (amended, witness): an unhandled smooth-curve group expands to
nothing. -/
theorem svg_parser_unhandled_letters_witness :
    expandGroup ('S', ['1', ' ', '2']) = [] :=
  svg_parser_unhandled_letters.2 ('S', ['1', ' ', '2']) (by decide)

/-- C6 (counterexample): the letter `E` is outside the supported set,
but parsing does not ignore it: in `"M0,0 E5,5 L1,1"` the run `E5,5` is
absorbed into the `M` group's arguments and yields an extra move
command with a `NaN` x-coordinate, so the parse differs from the parse
of `"M0,0 L1,1"`. -/
theorem unknown_letter_counterexample :
    parseSvgPath "M0,0 E5,5 L1,1" =
      [{ type := 'M', x := some 0, y := some 0 },
       { type := 'M', x := none, y := some 5 },
       { type := 'L', x := some 1, y := some 1 }] ∧
    parseSvgPath "M0,0 L1,1" =
      [{ type := 'M', x := some 0, y := some 0 },
       { type := 'L', x := some 1, y := some 1 }] ∧
    parseSvgPath "M0,0 E5,5 L1,1" ≠ parseSvgPath "M0,0 L1,1" := by
  refine ⟨?_, ?_, ?_⟩ <;> with_unfolding_all decide

/-- `placeLabel` is the composition of its four source blocks. -/
lemma placeLabel_stages (cfg : SheetConfig) (st : ArrangeState)
    (l : LabelSetup) :
    placeLabel cfg st l =
      recordStage cfg (overflowStage cfg
        (wrapStage cfg (seedStage st l.labelHeightMm)
          l.labelLengthMm l.labelHeightMm) l.labelHeightMm) l := rfl

/-- Seeding the row height does not touch the sheets. -/
lemma seedStage_sheets (st : ArrangeState) (lh : ℚ) :
    (seedStage st lh).sheets = st.sheets := by
  unfold seedStage; split_ifs <;> rfl

/-- Seeding the row height does not touch the current sheet. -/
lemma seedStage_currentSheet (st : ArrangeState) (lh : ℚ) :
    (seedStage st lh).currentSheet = st.currentSheet := by
  unfold seedStage; split_ifs <;> rfl

/-- A row wrap does not touch the sheets. -/
lemma wrapStage_sheets (cfg : SheetConfig) (st : ArrangeState)
    (lw lh : ℚ) : (wrapStage cfg st lw lh).sheets = st.sheets := by
  unfold wrapStage; split_ifs <;> rfl

/-- A row wrap does not touch the current sheet. -/
lemma wrapStage_currentSheet (cfg : SheetConfig) (st : ArrangeState)
    (lw lh : ℚ) : (wrapStage cfg st lw lh).currentSheet = st.currentSheet := by
  unfold wrapStage; split_ifs <;> rfl

/-- Recording a placement does not touch the closed sheets. -/
lemma recordStage_sheets (cfg : SheetConfig) (st : ArrangeState)
    (l : LabelSetup) : (recordStage cfg st l).sheets = st.sheets := rfl

/-- Sheet overflow only ever archives a non-empty current sheet. -/
lemma overflowStage_sheets_nonempty {cfg : SheetConfig} {st : ArrangeState}
    {lh : ℚ} (h : ∀ s ∈ st.sheets, s.labels ≠ []) :
    ∀ s ∈ (overflowStage cfg st lh).sheets, s.labels ≠ [] := by
  unfold overflowStage
  split_ifs with hc he
  · exact h
  · intro s hs
    have hs' : s ∈ st.sheets ++ [st.currentSheet] := hs
    rcases List.mem_append.mp hs' with h1 | h2
    · exact h s h1
    · rw [List.mem_singleton] at h2
      subst h2
      exact fun hnil => he (by simp [hnil])
  · exact h

/-- The loop body only ever archives non-empty sheets. -/
lemma placeLabel_sheets_nonempty {cfg : SheetConfig} {st : ArrangeState}
    {l : LabelSetup} (h : ∀ s ∈ st.sheets, s.labels ≠ []) :
    ∀ s ∈ (placeLabel cfg st l).sheets, s.labels ≠ [] := by
  rw [placeLabel_stages]
  intro s hs
  rw [recordStage_sheets] at hs
  refine overflowStage_sheets_nonempty ?_ s hs
  rw [wrapStage_sheets, seedStage_sheets]
  exact h

/-- Invariant of the whole packing loop: archived sheets are
non-empty. -/
lemma foldl_sheets_nonempty (cfg : SheetConfig) :
    ∀ (L : List LabelSetup) (st : ArrangeState),
      (∀ s ∈ st.sheets, s.labels ≠ []) →
      ∀ s ∈ (L.foldl (placeLabel cfg) st).sheets, s.labels ≠ [] := by
  intro L
  induction L with
  | nil => exact fun st h => h
  | cons a L ih => exact fun st h => ih _ (placeLabel_sheets_nonempty h)

/-- Every sheet returned by the DXF packer is non-empty. -/
lemma arrange_sheets_nonempty (setups : List LabelSetup) (cfg : SheetConfig) :
    ∀ sheet ∈ arrangeLabelsOnSheets setups cfg, sheet.labels ≠ [] := by
  intro sheet hs
  simp only [arrangeLabelsOnSheets] at hs
  set final := (expandQuantities setups).foldl (placeLabel cfg)
    (initialArrangeState cfg) with hfinal
  have hbase : ∀ s ∈ (initialArrangeState cfg).sheets, s.labels ≠ [] := by
    simp [initialArrangeState]
  by_cases he : final.currentSheet.labels.isEmpty
  · rw [if_pos he] at hs
    exact foldl_sheets_nonempty cfg _ _ hbase sheet hs
  · rw [if_neg he] at hs
    rcases List.mem_append.mp hs with h1 | h2
    · exact foldl_sheets_nonempty cfg _ _ hbase sheet h1
    · rw [List.mem_singleton] at h2
      subst h2
      exact fun hnil => he (by simp [hnil])

/-- Mapping preserves emptiness. -/
lemma isEmpty_map {α β : Type} (f : α → β) (l : List α) :
    (l.map f).isEmpty = l.isEmpty := by
  cases l <;> rfl

/-- `placeLabelPdf` is the composition of its four source blocks. -/
lemma placeLabelPdf_stages (cfg : SheetConfig) (st : PdfArrangeState)
    (l : LabelSetup) :
    placeLabelPdf cfg st l =
      recordStagePdf cfg (overflowStagePdf cfg
        (wrapStagePdf cfg (seedStagePdf st l.labelHeightMm)
          l.labelLengthMm l.labelHeightMm) l.labelHeightMm) l := rfl

/-- Seeding commutes with dropping page numbers. -/
lemma seedStagePdf_strip (st : ArrangeState) (lh : ℚ) :
    seedStagePdf (stripState st) lh = stripState (seedStage st lh) := by
  unfold seedStagePdf seedStage stripState
  dsimp only
  split_ifs <;> rfl

/-- Wrapping commutes with dropping page numbers. -/
lemma wrapStagePdf_strip (cfg : SheetConfig) (st : ArrangeState)
    (lw lh : ℚ) :
    wrapStagePdf cfg (stripState st) lw lh =
      stripState (wrapStage cfg st lw lh) := by
  unfold wrapStagePdf wrapStage stripState
  dsimp only
  split_ifs <;> rfl

/-- Overflow commutes with dropping page numbers. -/
lemma overflowStagePdf_strip (cfg : SheetConfig) (st : ArrangeState)
    (lh : ℚ) :
    overflowStagePdf cfg (stripState st) lh =
      stripState (overflowStage cfg st lh) := by
  unfold overflowStagePdf overflowStage stripState
  dsimp only
  rw [isEmpty_map]
  split_ifs <;> simp [List.map_append]

/-- Recording commutes with dropping page numbers. -/
lemma recordStagePdf_strip (cfg : SheetConfig) (st : ArrangeState)
    (l : LabelSetup) :
    recordStagePdf cfg (stripState st) l =
      stripState (recordStage cfg st l) := by
  unfold recordStagePdf recordStage stripState stripPlaced
  dsimp only
  simp [List.map_append]

/-- The PDF module's loop body is the DXF module's loop body with page
numbers and `quantity` dropped. -/
lemma placeLabelPdf_strip (cfg : SheetConfig) (st : ArrangeState)
    (l : LabelSetup) :
    placeLabelPdf cfg (stripState st) l = stripState (placeLabel cfg st l) := by
  rw [placeLabelPdf_stages, placeLabel_stages, seedStagePdf_strip,
    wrapStagePdf_strip, overflowStagePdf_strip, recordStagePdf_strip]

/-- The two packers produce the same placements sheet for sheet. -/
lemma arrangePdf_eq_strip (setups : List LabelSetup) (cfg : SheetConfig) :
    arrangeLabelsOnSheetsPdf setups cfg =
      (arrangeLabelsOnSheets setups cfg).map fun s => s.labels.map stripPlaced := by
  unfold arrangeLabelsOnSheetsPdf arrangeLabelsOnSheets
  have hfold : ∀ (L : List LabelSetup) (st : ArrangeState),
      L.foldl (placeLabelPdf cfg) (stripState st) =
        stripState (L.foldl (placeLabel cfg) st) := by
    intro L
    induction L with
    | nil => exact fun st => rfl
    | cons a L ih =>
      intro st
      rw [List.foldl_cons, List.foldl_cons, placeLabelPdf_strip, ih]
  have hinit :
      (⟨[], [], cfg.margin, cfg.height - cfg.margin, 0⟩ : PdfArrangeState) =
        stripState (initialArrangeState cfg) := rfl
  rw [hinit, hfold]
  dsimp only
  set final := (expandQuantities setups).foldl (placeLabel cfg)
    (initialArrangeState cfg) with hfinal
  have hcond : (stripState final).currentSheet.isEmpty =
      final.currentSheet.labels.isEmpty := by
    simp [stripState, isEmpty_map]
  rw [hcond]
  by_cases he : final.currentSheet.labels.isEmpty
  · rw [if_pos he, if_pos he]
    simp [stripState]
  · rw [if_neg he, if_neg he]
    simp [stripState, List.map_append]

/-- C10: the packer never returns an empty sheet (in either the DXF or
the PDF module), and an empty spec list yields an empty sheet
sequence. -/
theorem packer_no_empty_sheets :
    (∀ (setups : List LabelSetup) (cfg : SheetConfig),
      ∀ sheet ∈ arrangeLabelsOnSheets setups cfg, sheet.labels ≠ []) ∧
    (∀ (setups : List LabelSetup) (cfg : SheetConfig),
      ∀ s ∈ arrangeLabelsOnSheetsPdf setups cfg, s ≠ []) ∧
    (∀ cfg : SheetConfig, arrangeLabelsOnSheets [] cfg = []) ∧
    (∀ cfg : SheetConfig, arrangeLabelsOnSheetsPdf [] cfg = []) := by
  refine ⟨arrange_sheets_nonempty, ?_, fun cfg => rfl, fun cfg => rfl⟩
  intro setups cfg s hs
  rw [arrangePdf_eq_strip] at hs
  rcases List.mem_map.mp hs with ⟨sheet, hmem, rfl⟩
  have hne := arrange_sheets_nonempty setups cfg sheet hmem
  simpa using hne

/-- C10 (witness): the single sheet packed from one three-copy spec is
non-empty. -/
theorem packer_no_empty_sheets_witness :
    (arrangeLabelsOnSheets [smallLabel 3] DEFAULT_SHEET).headI.labels ≠ [] :=
  packer_no_empty_sheets.1 [smallLabel 3] DEFAULT_SHEET _
    (by with_unfolding_all decide)

/-- Neither seeding nor wrapping nor overflow changes the number of
placed labels; recording adds exactly one. -/
lemma placedCount_placeLabel (cfg : SheetConfig) (st : ArrangeState)
    (l : LabelSetup) :
    placedCount (placeLabel cfg st l) = placedCount st + 1 := by
  rw [placeLabel_stages]
  have hseed : placedCount (seedStage st l.labelHeightMm) = placedCount st := by
    unfold seedStage placedCount
    split_ifs <;> rfl
  have hwrap : ∀ st' : ArrangeState,
      placedCount (wrapStage cfg st' l.labelLengthMm l.labelHeightMm) =
        placedCount st' := by
    intro st'
    unfold wrapStage placedCount
    split_ifs <;> rfl
  have hover : ∀ st' : ArrangeState,
      placedCount (overflowStage cfg st' l.labelHeightMm) = placedCount st' := by
    intro st'
    unfold overflowStage placedCount
    split_ifs with hc he
    · simp [List.isEmpty_iff.mp he]
    · simp [List.map_append, List.sum_append]
    · rfl
  have hrec : ∀ st' : ArrangeState,
      placedCount (recordStage cfg st' l) = placedCount st' + 1 := by
    intro st'
    unfold recordStage placedCount
    simp
    omega
  rw [hrec, hover, hwrap, hseed]

/-- The packing loop places exactly one label per expanded request. -/
lemma placedCount_foldl (cfg : SheetConfig) :
    ∀ (L : List LabelSetup) (st : ArrangeState),
      placedCount (L.foldl (placeLabel cfg) st) = placedCount st + L.length := by
  intro L
  induction L with
  | nil => intro st; simp
  | cons a L ih =>
    intro st
    rw [List.foldl_cons, ih, placedCount_placeLabel, List.length_cons]
    omega

/-- The expansion loop produces one copy per effective quantity. -/
lemma length_expandQuantities (setups : List LabelSetup) :
    (expandQuantities setups).length = (setups.map effectiveQuantity).sum := by
  unfold expandQuantities effectiveQuantity
  induction setups with
  | nil => rfl
  | cons s l ih =>
    simp only [List.flatMap_cons, List.length_append, List.length_replicate,
      List.map_cons, List.sum_cons, ih]

/-- The total number of placements across the returned sheets equals
the length of the expanded request list. -/
lemma total_placed_eq (setups : List LabelSetup) (cfg : SheetConfig) :
    ((arrangeLabelsOnSheets setups cfg).map fun s => s.labels.length).sum =
      (setups.map effectiveQuantity).sum := by
  unfold arrangeLabelsOnSheets
  set final := (expandQuantities setups).foldl (placeLabel cfg)
    (initialArrangeState cfg) with hfinal
  have hcount : placedCount final = (setups.map effectiveQuantity).sum := by
    rw [hfinal, placedCount_foldl, length_expandQuantities]
    simp [placedCount, initialArrangeState]
  have hout : ((if final.currentSheet.labels.isEmpty then final.sheets
      else final.sheets ++ [final.currentSheet]).map
        fun s => s.labels.length).sum = placedCount final := by
    by_cases he : final.currentSheet.labels.isEmpty
    · rw [if_pos he]
      unfold placedCount
      simp [List.isEmpty_iff.mp he]
    · rw [if_neg he]
      unfold placedCount
      simp [List.map_append, List.sum_append]
  rw [hout, hcount]

/-- C1 (amended): for every non-empty input, the total number of
`PlacedLabel` across all returned sheets equals the sum of the specs'
effective quantities, where a spec's effective quantity is its
`labelQuantity` except that quantity 0 contributes ONE placement (the
source defaults `labelQuantity || 1`). -/
theorem packing_conservation (setups : List LabelSetup) (cfg : SheetConfig)
    (_hne : setups ≠ []) :
    ((arrangeLabelsOnSheets setups cfg).map fun s => s.labels.length).sum =
      (setups.map effectiveQuantity).sum :=
  total_placed_eq setups cfg

/-- C1 (amended, witness): five copies of the small label pack into
five placements. -/
theorem packing_conservation_witness :
    ((arrangeLabelsOnSheets [smallLabel 5] DEFAULT_SHEET).map
      fun s => s.labels.length).sum =
      ([smallLabel 5].map effectiveQuantity).sum :=
  packing_conservation [smallLabel 5] DEFAULT_SHEET (by simp)

/-- C1 (counterexample): a spec with quantity 0 contributes one
placement, not none — the total across sheets is 1 while the sum of
quantities is 0. -/
theorem quantity_zero_contributes :
    ((arrangeLabelsOnSheets [smallLabel 0] DEFAULT_SHEET).map
      fun s => s.labels.length).sum = 1 ∧
    ([smallLabel 0].map fun s => s.labelQuantity).sum = 0 := by
  constructor <;> with_unfolding_all decide

/-- The loop body preserves the page-numbering invariant. -/
lemma pageInv_placeLabel {cfg : SheetConfig} {st : ArrangeState}
    {l : LabelSetup} (h : PageInv st) : PageInv (placeLabel cfg st l) := by
  obtain ⟨h1, h2⟩ := h
  rw [placeLabel_stages]
  have hseed : PageInv (seedStage st l.labelHeightMm) := by
    unfold PageInv
    rw [seedStage_sheets, seedStage_currentSheet]
    exact ⟨h1, h2⟩
  have hover : ∀ st' : ArrangeState, PageInv st' →
      PageInv (overflowStage cfg st' l.labelHeightMm) := by
    intro st' ⟨g1, g2⟩
    unfold overflowStage
    split_ifs with hc he
    · exact ⟨rfl, g2⟩
    · refine ⟨rfl, ?_⟩
      show (st'.sheets ++ [st'.currentSheet]).map (fun s => s.pageNumber) =
        List.range' 1 (st'.sheets ++ [st'.currentSheet]).length
      rw [List.map_append, g2, List.length_append, List.map_singleton, g1,
        List.length_singleton, List.range'_concat]
      simp
      omega
    · exact ⟨g1, g2⟩
  have hwrap : ∀ st' : ArrangeState, PageInv st' →
      PageInv (wrapStage cfg st' l.labelLengthMm l.labelHeightMm) := by
    intro st' ⟨g1, g2⟩
    unfold PageInv
    rw [wrapStage_sheets, wrapStage_currentSheet]
    exact ⟨g1, g2⟩
  have hrec : ∀ st' : ArrangeState, PageInv st' →
      PageInv (recordStage cfg st' l) := by
    intro st' ⟨g1, g2⟩
    exact ⟨g1, g2⟩
  exact hrec _ (hover _ (hwrap _ hseed))

/-- The sheets returned by the DXF packer are numbered `1, 2, …` in
order. -/
lemma arrange_pageNumbers (setups : List LabelSetup) (cfg : SheetConfig) :
    (arrangeLabelsOnSheets setups cfg).map (fun s => s.pageNumber) =
      List.range' 1 (arrangeLabelsOnSheets setups cfg).length := by
  have hfold : ∀ (L : List LabelSetup) (st : ArrangeState), PageInv st →
      PageInv (L.foldl (placeLabel cfg) st) := by
    intro L
    induction L with
    | nil => exact fun st h => h
    | cons a L ih => exact fun st h => ih _ (pageInv_placeLabel h)
  have hfin := hfold (expandQuantities setups) (initialArrangeState cfg)
    ⟨rfl, rfl⟩
  obtain ⟨h1, h2⟩ := hfin
  unfold arrangeLabelsOnSheets
  set final := (expandQuantities setups).foldl (placeLabel cfg)
    (initialArrangeState cfg) with hfinal
  by_cases he : final.currentSheet.labels.isEmpty
  · rw [if_pos he]
    exact h2
  · rw [if_neg he, List.map_append, h2, List.length_append,
      List.map_singleton, h1, List.length_singleton, List.range'_concat]
    simp
    omega

/-- Flat-maps agree when the functions agree on the list. -/
lemma flatMap_congr {α β : Type} {l : List α} {f g : α → List β}
    (h : ∀ a ∈ l, f a = g a) : l.flatMap f = l.flatMap g := by
  induction l with
  | nil => rfl
  | cons a l ih =>
    rw [List.flatMap_cons, List.flatMap_cons, h a (by simp),
      ih fun a ha => h a (by simp [ha])]

/-- C9 (amended): export filenames follow the template
`"MLA <textColor> on <bgColor> <thickness>mm<styleSuffix> <2-digit page>"`
plus the format extension (the claim omitted the fixed `"MLA "` prefix
and the `"mm"` unit); the suffix is `" Non AD"` exactly for the
`"Non Adhesive"` style and empty otherwise, and page numbers restart at
1 within each material group in both export paths. -/
theorem filename_scheme :
    (∀ (setups : List LabelSetup) (cfg : SheetConfig),
      generateDxfFilenames setups cfg =
        (groupSetups setups).flatMap fun g =>
          (List.range (arrangeLabelsOnSheets g.2 cfg).length).map fun i =>
            dxfFilename g.1 (i + 1)) ∧
    (∀ (setups : List LabelSetup) (cfg : SheetConfig),
      generatePdfFilenames setups cfg =
        (groupSetups setups).flatMap fun g =>
          (List.range (arrangeLabelsOnSheetsPdf g.2 cfg).length).map fun i =>
            pdfFilename g.1 (i + 1)) ∧
    (∀ style : String, style ≠ "Non Adhesive" → styleSuffix style = "") ∧
    styleSuffix "Non Adhesive" = " Non AD" := by
  refine ⟨?_, fun setups cfg => rfl,
    fun style h => by simp [styleSuffix, h], rfl⟩
  intro setups cfg
  unfold generateDxfFilenames
  refine flatMap_congr fun g _ => ?_
  calc (arrangeLabelsOnSheets g.2 cfg).map
        (fun sheet => dxfFilename g.1 sheet.pageNumber)
      = ((arrangeLabelsOnSheets g.2 cfg).map (fun s => s.pageNumber)).map
          (dxfFilename g.1) := by
        rw [List.map_map]
        rfl
    _ = (List.range' 1 (arrangeLabelsOnSheets g.2 cfg).length).map
          (dxfFilename g.1) := by
        rw [arrange_pageNumbers]
    _ = ((List.range (arrangeLabelsOnSheets g.2 cfg).length).map
          (fun i => 1 + i)).map (dxfFilename g.1) := by
        rw [List.range'_eq_map_range]
    _ = (List.range (arrangeLabelsOnSheets g.2 cfg).length).map
          (fun i => dxfFilename g.1 (i + 1)) := by
        rw [List.map_map]
        exact List.map_congr_left fun i _ => by
          simp [Function.comp, Nat.add_comm]

/-- C9 (amended, witness): the scheme on a concrete single-group
export, and the suffix on the adhesive style. -/
theorem filename_scheme_witness :
    generateDxfFilenames [filenameLabel] DEFAULT_SHEET =
      ((groupSetups [filenameLabel]).flatMap fun g =>
        (List.range (arrangeLabelsOnSheets g.2 DEFAULT_SHEET).length).map
          fun i => dxfFilename g.1 (i + 1)) ∧
    styleSuffix "Adhesive" = "" :=
  ⟨filename_scheme.1 [filenameLabel] DEFAULT_SHEET,
   filename_scheme.2.2.1 "Adhesive" (by decide)⟩

/-- C9 (counterexample): the generated filename carries the fixed
`"MLA "` prefix (and an `"mm"` unit after the thickness), so it is not
the string the claimed template
`"<textColor> on <bgColor> <thickness><styleSuffix> <2-digit page>"`
produces. -/
theorem filename_pattern_counterexample :
    generateDxfFilenames [filenameLabel] DEFAULT_SHEET =
      ["MLA Black on White 2mm 01.dxf"] ∧
    "MLA Black on White 2mm 01.dxf" ≠ "Black on White 2mm 01.dxf" := by
  constructor <;> with_unfolding_all decide

/-- One step of the uniform 20×7 scenario: below the 1260-slot
capacity, a placement stays on the first sheet and advances the cursor
by one slot. -/
lemma c3_step (k pg : ℕ) (labels : List PlacedLabel) (l : LabelSetup)
    (hw : l.labelLengthMm = 20) (hh : l.labelHeightMm = 7)
    (hk : 1 ≤ k) (hk2 : k + 1 ≤ 1260) :
    ∃ pl : PlacedLabel,
      placeLabel DEFAULT_SHEET
        ⟨[], ⟨pg, labels⟩, xpos20 k, ypos7 k, 7⟩ l =
        ⟨[], ⟨pg, labels ++ [pl]⟩, xpos20 (k + 1), ypos7 (k + 1), 7⟩ := by
  rw [placeLabel_stages, hw, hh]
  rw [show seedStage ⟨[], ⟨pg, labels⟩, xpos20 k, ypos7 k, 7⟩ (7 : ℚ) =
      ⟨[], ⟨pg, labels⟩, xpos20 k, ypos7 k, 7⟩ from by
    unfold seedStage
    rw [if_neg (by norm_num)]]
  by_cases h29 : (k - 1) % 30 = 29
  · -- row wrap into a fresh row below
    have hcond : xpos20 k + 20 > DEFAULT_SHEET.width - DEFAULT_SHEET.margin := by
      unfold xpos20 DEFAULT_SHEET
      rw [h29]
      norm_num
    rw [show wrapStage DEFAULT_SHEET ⟨[], ⟨pg, labels⟩, xpos20 k, ypos7 k, 7⟩
        20 7 =
        ⟨[], ⟨pg, labels⟩, DEFAULT_SHEET.margin,
          ypos7 k - (7 + DEFAULT_SHEET.gap), 7⟩ from by
      unfold wrapStage
      rw [if_pos hcond]]
    have hnover : ¬ (ypos7 k - (7 + DEFAULT_SHEET.gap) - 7 <
        DEFAULT_SHEET.margin) := by
      have hble : ((k - 1) / 30 : ℕ) ≤ 40 := by omega
      have hble' : (((k - 1) / 30 : ℕ) : ℚ) ≤ 40 := by exact_mod_cast hble
      show ¬ (300 - 7 * (((k - 1) / 30 : ℕ) : ℚ) - (7 + 0) - 7 < 0)
      linarith
    rw [show overflowStage DEFAULT_SHEET
        ⟨[], ⟨pg, labels⟩, DEFAULT_SHEET.margin,
          ypos7 k - (7 + DEFAULT_SHEET.gap), 7⟩ 7 =
        ⟨[], ⟨pg, labels⟩, DEFAULT_SHEET.margin,
          ypos7 k - (7 + DEFAULT_SHEET.gap), 7⟩ from by
      unfold overflowStage
      rw [if_neg hnover]]
    have hX : DEFAULT_SHEET.margin + 20 + DEFAULT_SHEET.gap = xpos20 (k + 1) := by
      have hmod : (k + 1 - 1) % 30 = 0 := by omega
      unfold xpos20
      rw [hmod]
      show (0 : ℚ) + 20 + 0 = 20 * ((0 + 1 : ℕ) : ℚ)
      norm_num
    have hYw : ypos7 k - (7 + DEFAULT_SHEET.gap) = ypos7 (k + 1) := by
      have hdiv : (k + 1 - 1) / 30 = (k - 1) / 30 + 1 := by omega
      unfold ypos7
      rw [hdiv]
      show 300 - 7 * (((k - 1) / 30 : ℕ) : ℚ) - (7 + 0) =
        300 - 7 * (((k - 1) / 30 + 1 : ℕ) : ℚ)
      push_cast
      ring
    refine ⟨⟨l, DEFAULT_SHEET.margin,
      ypos7 k - (7 + DEFAULT_SHEET.gap) - 7, 1⟩, ?_⟩
    unfold recordStage
    rw [hw, hh, max_self, hX, hYw]
  · -- same row, next slot
    have hcond : ¬ (xpos20 k + 20 > DEFAULT_SHEET.width - DEFAULT_SHEET.margin) := by
      unfold xpos20 DEFAULT_SHEET
      have hble : ((k - 1) % 30 : ℕ) ≤ 28 := by omega
      have hble' : (((k - 1) % 30 : ℕ) : ℚ) ≤ 28 := by exact_mod_cast hble
      show ¬ (20 * (((k - 1) % 30 + 1 : ℕ) : ℚ) + 20 > 600 - 0)
      push_cast
      linarith
    rw [show wrapStage DEFAULT_SHEET ⟨[], ⟨pg, labels⟩, xpos20 k, ypos7 k, 7⟩
        20 7 = ⟨[], ⟨pg, labels⟩, xpos20 k, ypos7 k, 7⟩ from by
      unfold wrapStage
      rw [if_neg hcond]]
    have hnover : ¬ (ypos7 k - 7 < DEFAULT_SHEET.margin) := by
      have hble : ((k - 1) / 30 : ℕ) ≤ 41 := by omega
      have hble' : (((k - 1) / 30 : ℕ) : ℚ) ≤ 41 := by exact_mod_cast hble
      show ¬ (300 - 7 * (((k - 1) / 30 : ℕ) : ℚ) - 7 < 0)
      linarith
    rw [show overflowStage DEFAULT_SHEET
        ⟨[], ⟨pg, labels⟩, xpos20 k, ypos7 k, 7⟩ 7 =
        ⟨[], ⟨pg, labels⟩, xpos20 k, ypos7 k, 7⟩ from by
      unfold overflowStage
      rw [if_neg hnover]]
    have hX : xpos20 k + 20 + DEFAULT_SHEET.gap = xpos20 (k + 1) := by
      have hmod : (k + 1 - 1) % 30 = (k - 1) % 30 + 1 := by omega
      unfold xpos20
      rw [hmod]
      show 20 * (((k - 1) % 30 + 1 : ℕ) : ℚ) + 20 + 0 =
        20 * (((k - 1) % 30 + 1 + 1 : ℕ) : ℚ)
      push_cast
      ring
    have hY : ypos7 k = ypos7 (k + 1) := by
      have hdiv : (k + 1 - 1) / 30 = (k - 1) / 30 := by omega
      unfold ypos7
      rw [hdiv]
    refine ⟨⟨l, xpos20 k, ypos7 k - 7, 1⟩, ?_⟩
    unfold recordStage
    rw [hw, hh, max_self, hX, ← hY]

/-- Folding the packing loop over uniform 20×7 labels below capacity
stays on the first sheet. -/
lemma c3_fold (L : List LabelSetup) :
    (∀ l ∈ L, l.labelLengthMm = 20 ∧ l.labelHeightMm = 7) →
    ∀ (k pg : ℕ) (labels : List PlacedLabel), 1 ≤ k →
      k + L.length ≤ 1260 →
      ∃ labels' : List PlacedLabel,
        labels'.length = labels.length + L.length ∧
        L.foldl (placeLabel DEFAULT_SHEET)
            ⟨[], ⟨pg, labels⟩, xpos20 k, ypos7 k, 7⟩ =
          ⟨[], ⟨pg, labels'⟩, xpos20 (k + L.length), ypos7 (k + L.length), 7⟩ := by
  induction L with
  | nil =>
    intro _ k pg labels hk _
    exact ⟨labels, by simp, by simp⟩
  | cons l L ih =>
    intro hL k pg labels hk hcap
    rw [List.length_cons] at hcap
    obtain ⟨hw, hh⟩ := hL l (by simp)
    obtain ⟨pl, hstep⟩ := c3_step k pg labels l hw hh hk (by omega)
    rw [List.foldl_cons, hstep]
    obtain ⟨labels', hlen, heq⟩ :=
      ih (fun x hx => hL x (by simp [hx])) (k + 1) pg (labels ++ [pl])
        (by omega) (by omega)
    refine ⟨labels', ?_, ?_⟩
    · rw [hlen, List.length_append, List.length_singleton, List.length_cons]
      omega
    · rw [heq, List.length_cons,
        show k + 1 + L.length = k + (L.length + 1) from by omega]

/-- The placement-recording block on an explicit state. -/
lemma recordStage_mk (cfg : SheetConfig) (sheets : List DxfSheet)
    (cur : DxfSheet) (x y r : ℚ) (l : LabelSetup) :
    recordStage cfg ⟨sheets, cur, x, y, r⟩ l =
      ⟨sheets,
        ⟨cur.pageNumber, cur.labels ++ [⟨l, x, y - l.labelHeightMm, 1⟩]⟩,
        x + l.labelLengthMm + cfg.gap, y, max r l.labelHeightMm⟩ := rfl

/-- The very first placement of a 20×7 label on the default sheet. -/
lemma c3_first (l : LabelSetup) (hw : l.labelLengthMm = 20)
    (hh : l.labelHeightMm = 7) :
    ∃ pl : PlacedLabel,
      placeLabel DEFAULT_SHEET (initialArrangeState DEFAULT_SHEET) l =
        ⟨[], ⟨1, [pl]⟩, xpos20 1, ypos7 1, 7⟩ := by
  rw [placeLabel_stages, hw, hh]
  rw [show initialArrangeState DEFAULT_SHEET =
    ⟨[], ⟨1, []⟩, 0, (300 : ℚ) - 0, 0⟩ from rfl]
  rw [show (300 : ℚ) - 0 = 300 from by norm_num]
  rw [show seedStage ⟨[], ⟨1, []⟩, 0, 300, 0⟩ (7 : ℚ) =
      ⟨[], ⟨1, []⟩, 0, 300, 7⟩ from by
    unfold seedStage
    rw [if_pos rfl]]
  rw [show wrapStage DEFAULT_SHEET ⟨[], ⟨1, []⟩, 0, 300, 7⟩ 20 7 =
      ⟨[], ⟨1, []⟩, 0, 300, 7⟩ from by
    unfold wrapStage
    rw [if_neg ((by norm_num [DEFAULT_SHEET] :
      ¬ ((0 : ℚ) + 20 > DEFAULT_SHEET.width - DEFAULT_SHEET.margin)))]]
  rw [show overflowStage DEFAULT_SHEET ⟨[], ⟨1, []⟩, 0, 300, 7⟩ 7 =
      ⟨[], ⟨1, []⟩, 0, 300, 7⟩ from by
    unfold overflowStage
    rw [if_neg ((by norm_num [DEFAULT_SHEET] :
      ¬ ((300 : ℚ) - 7 < DEFAULT_SHEET.margin)))]]
  refine ⟨⟨l, 0, 300 - 7, 1⟩, ?_⟩
  rw [recordStage_mk, hw, hh]
  have hX : (0 : ℚ) + 20 + DEFAULT_SHEET.gap = xpos20 1 := by
    unfold xpos20
    show (0 : ℚ) + 20 + 0 = 20 * (((1 - 1) % 30 + 1 : ℕ) : ℚ)
    norm_num
  have hY : ypos7 1 = (300 : ℚ) := by
    unfold ypos7
    show (300 : ℚ) - 7 * (((1 - 1) / 30 : ℕ) : ℚ) = 300
    norm_num
  rw [max_self, hX, hY]
  rfl

/-- Sums of lists of non-negative integers commute with `toNat`. -/
lemma sum_toNat_eq (l : List ℤ) (h : ∀ x ∈ l, 0 ≤ x) :
    (l.map Int.toNat).sum = l.sum.toNat := by
  induction l with
  | nil => rfl
  | cons a l ih =>
    simp only [List.map_cons, List.sum_cons]
    rw [ih fun x hx => h x (by simp [hx])]
    have ha := h a (by simp)
    have hs : 0 ≤ l.sum := List.sum_nonneg fun x hx => h x (by simp [hx])
    omega

/-- Expanded copies come from the input specs. -/
lemma mem_expandQuantities {setups : List LabelSetup} {l : LabelSetup}
    (h : l ∈ expandQuantities setups) : l ∈ setups := by
  unfold expandQuantities at h
  rcases List.mem_flatMap.mp h with ⟨s, hs, hl⟩
  rw [List.eq_of_mem_replicate hl]
  exact hs

/-- C3 (amended): specs that are all 20×7 mm, each with quantity ≥ 1,
with total quantity at most 1260 = floor(600/20) × floor(300/7), pack
onto the 600×300 default sheet (margin 0, gap 0) as exactly one sheet
containing every label (placement count = sum of quantities). -/
theorem capacity_scenario (setups : List LabelSetup) (hne : setups ≠ [])
    (hdim : ∀ s ∈ setups, s.labelLengthMm = 20 ∧ s.labelHeightMm = 7)
    (hq : ∀ s ∈ setups, 1 ≤ s.labelQuantity)
    (hsum : quantitySum setups ≤ 1260) :
    (arrangeLabelsOnSheets setups DEFAULT_SHEET).length = 1 ∧
    ((arrangeLabelsOnSheets setups DEFAULT_SHEET).map
      fun s => s.labels.length).sum = (quantitySum setups).toNat := by
  have hq0 : ∀ x ∈ setups.map (fun s => s.labelQuantity), 0 ≤ x := by
    intro x hx
    rcases List.mem_map.mp hx with ⟨s, hs, rfl⟩
    exact le_trans (by norm_num) (hq s hs)
  have heff : (setups.map effectiveQuantity).sum = (quantitySum setups).toNat := by
    unfold quantitySum
    rw [show setups.map effectiveQuantity =
        (setups.map fun s => s.labelQuantity).map Int.toNat from by
      rw [List.map_map]
      exact List.map_congr_left fun s hs => by
        unfold effectiveQuantity
        have := hq s hs
        rw [if_neg (by omega)]
        rfl]
    exact sum_toNat_eq _ hq0
  have hlenL : (expandQuantities setups).length = (quantitySum setups).toNat := by
    rw [length_expandQuantities, heff]
  have hsum1 : 1 ≤ quantitySum setups := by
    unfold quantitySum
    cases setups with
    | nil => exact absurd rfl hne
    | cons s rest =>
      have h1 := hq s (by simp)
      have h2 : 0 ≤ (rest.map fun x => x.labelQuantity).sum :=
        List.sum_nonneg fun x hx => hq0 x (by simp; right; simpa using hx)
      simp only [List.map_cons, List.sum_cons]
      omega
  have hcap : (expandQuantities setups).length ≤ 1260 := by
    rw [hlenL]
    omega
  have hlen1 : 1 ≤ (expandQuantities setups).length := by
    rw [hlenL]
    omega
  have hdims : ∀ l ∈ expandQuantities setups,
      l.labelLengthMm = 20 ∧ l.labelHeightMm = 7 :=
    fun l hl => hdim l (mem_expandQuantities hl)
  constructor
  · -- exactly one sheet
    unfold arrangeLabelsOnSheets
    cases hL : expandQuantities setups with
    | nil => rw [hL] at hlen1; simp at hlen1
    | cons l0 L' =>
      rw [hL] at hdims hcap
      obtain ⟨hw, hh⟩ := hdims l0 (by simp)
      obtain ⟨pl0, hfirst⟩ := c3_first l0 hw hh
      rw [List.length_cons] at hcap
      obtain ⟨labels', hlen', heq⟩ :=
        c3_fold L' (fun x hx => hdims x (by simp [hx])) 1 1 [pl0]
          (by omega) (by omega)
      rw [List.foldl_cons, hfirst, heq]
      have hne' : ¬ (labels'.isEmpty = true) := by
        rw [List.length_singleton] at hlen'
        intro hempty
        rw [List.isEmpty_iff.mp hempty, List.length_nil] at hlen'
        omega
      rw [if_neg hne']
      rfl
  · rw [total_placed_eq, heff]

/-- C3 (amended, witness): three 20×7 labels and a 20×7 pair pack onto
one sheet of five labels. -/
theorem capacity_scenario_witness :
    (arrangeLabelsOnSheets [smallLabel 3, smallLabel 2] DEFAULT_SHEET).length = 1 ∧
    ((arrangeLabelsOnSheets [smallLabel 3, smallLabel 2] DEFAULT_SHEET).map
      fun s => s.labels.length).sum =
      (quantitySum [smallLabel 3, smallLabel 2]).toNat :=
  capacity_scenario [smallLabel 3, smallLabel 2]
    (by simp)
    (by intro s hs; simp only [List.mem_cons, List.not_mem_nil, or_false] at hs
        rcases hs with rfl | rfl <;> exact ⟨rfl, rfl⟩)
    (by intro s hs; simp only [List.mem_cons, List.not_mem_nil, or_false] at hs
        rcases hs with rfl | rfl <;> norm_num [smallLabel])
    (by norm_num [quantitySum, smallLabel])

/-- C3 (counterexample): a single 20×7 spec with quantity 0 has total
quantity 0 ≤ 1260, yet the packer's one sheet carries one placement,
not the sum of quantities — the scenario's "one sheet containing every
label (placement count = quantity sum)" fails as stated. -/
theorem capacity_scenario_counterexample :
    quantitySum [smallLabel 0] ≤ 1260 ∧
    (∀ s ∈ [smallLabel 0], s.labelLengthMm = 20 ∧ s.labelHeightMm = 7) ∧
    ¬ (((arrangeLabelsOnSheets [smallLabel 0] DEFAULT_SHEET).map
        fun s => s.labels.length).sum = (quantitySum [smallLabel 0]).toNat) := by
  refine ⟨?_, ?_, ?_⟩ <;> with_unfolding_all decide

/-- Seeding the row height preserves the geometric invariant. -/
lemma packInv_seed {st : ArrangeState} {lh : ℚ} (hlh : 0 < lh)
    (h : PackInv st) : PackInv (seedStage st lh) := by
  obtain ⟨h1, h2, h3, h4⟩ := h
  unfold seedStage
  split_ifs with hr
  · refine ⟨le_of_lt hlh, ?_, h3, h4⟩
    intro p hp
    obtain ⟨pw, ph, hcase⟩ := h2 p hp
    refine ⟨pw, ph, ?_⟩
    rcases hcase with ⟨-, -, hle⟩ | habove
    · rw [hr] at hle
      linarith
    · exact Or.inr habove
  · exact ⟨h1, h2, h3, h4⟩

/-- A row wrap preserves the geometric invariant: every label moves to
the "above the current row top" side. -/
lemma packInv_wrap {cfg : SheetConfig} {st : ArrangeState} {lw lh : ℚ}
    (hg : 0 ≤ cfg.gap) (hlh : 0 ≤ lh) (h : PackInv st) :
    PackInv (wrapStage cfg st lw lh) := by
  obtain ⟨h1, h2, h3, h4⟩ := h
  unfold wrapStage
  split_ifs with hc
  · refine ⟨hlh, ?_, h3, h4⟩
    intro p hp
    obtain ⟨pw, ph, hcase⟩ := h2 p hp
    refine ⟨pw, ph, Or.inr ?_⟩
    show st.currentY - (st.rowHeight + cfg.gap) ≤ p.y
    rcases hcase with ⟨htop, -, hle⟩ | habove
    · linarith
    · linarith
  · exact ⟨h1, h2, h3, h4⟩

/-- A sheet overflow preserves the geometric invariant: the archived
sheet keeps its pairwise property and the fresh sheet is empty. -/
lemma packInv_overflow {cfg : SheetConfig} {st : ArrangeState} {lh : ℚ}
    (hlh : 0 ≤ lh) (h : PackInv st) : PackInv (overflowStage cfg st lh) := by
  obtain ⟨h1, h2, h3, h4⟩ := h
  unfold overflowStage
  split_ifs with hc he
  · exact ⟨hlh, by intro p hp; simp at hp, List.Pairwise.nil, h4⟩
  · refine ⟨hlh, by intro p hp; simp at hp, List.Pairwise.nil, ?_⟩
    intro s hs
    have hs' : s ∈ st.sheets ++ [st.currentSheet] := hs
    rcases List.mem_append.mp hs' with hmem | hmem
    · exact h4 s hmem
    · rw [List.mem_singleton] at hmem
      subst hmem
      exact h3
  · exact ⟨h1, h2, h3, h4⟩

/-- Recording a placement preserves the geometric invariant: the new
label sits right of every current-row label and below every
earlier-row label. -/
lemma packInv_record {cfg : SheetConfig} {st : ArrangeState}
    {l : LabelSetup} (hg : 0 ≤ cfg.gap) (hw0 : 0 < l.labelLengthMm)
    (hh0 : 0 < l.labelHeightMm) (h : PackInv st) :
    PackInv (recordStage cfg st l) := by
  obtain ⟨h1, h2, h3, h4⟩ := h
  unfold PackInv recordStage
  dsimp only
  refine ⟨le_trans h1 (le_max_left _ _), ?_, ?_, h4⟩
  · intro p hp
    rcases List.mem_append.mp hp with hmem | hmem
    · obtain ⟨pw, ph, hcase⟩ := h2 p hmem
      refine ⟨pw, ph, ?_⟩
      rcases hcase with ⟨htop, hxle, hhle⟩ | habove
      · exact Or.inl ⟨htop, by linarith, le_trans hhle (le_max_left _ _)⟩
      · exact Or.inr habove
    · rw [List.mem_singleton] at hmem
      subst hmem
      refine ⟨hw0, hh0, Or.inl ⟨?_, ?_, ?_⟩⟩
      · show st.currentY - l.labelHeightMm + labelH
          ⟨l, st.currentX, st.currentY - l.labelHeightMm, 1⟩ = st.currentY
        show st.currentY - l.labelHeightMm + l.labelHeightMm = st.currentY
        ring
      · show st.currentX + labelW
          ⟨l, st.currentX, st.currentY - l.labelHeightMm, 1⟩ ≤
          st.currentX + l.labelLengthMm + cfg.gap
        show st.currentX + l.labelLengthMm ≤
          st.currentX + l.labelLengthMm + cfg.gap
        linarith
      · exact le_max_right _ _
  · rw [List.pairwise_append]
    refine ⟨h3, List.pairwise_singleton _ _, ?_⟩
    intro p hp n hn ho
    rw [List.mem_singleton] at hn
    subst hn
    obtain ⟨o1, o2, o3, o4⟩ := ho
    obtain ⟨pw, ph, hcase⟩ := h2 p hp
    rcases hcase with ⟨htop, hxle, hhle⟩ | habove
    · -- current row: the new label starts at the cursor, right of `p`
      have : st.currentX < p.x + labelW p := o2
      linarith
    · -- earlier rows: `p` lies fully above the new label's top
      have htop : st.currentY - l.labelHeightMm + labelH
          ⟨l, st.currentX, st.currentY - l.labelHeightMm, 1⟩ =
          st.currentY := by
        show st.currentY - l.labelHeightMm + l.labelHeightMm = st.currentY
        ring
      rw [htop] at o3
      linarith

/-- The loop body preserves the geometric invariant. -/
lemma packInv_placeLabel {cfg : SheetConfig} {st : ArrangeState}
    {l : LabelSetup} (hg : 0 ≤ cfg.gap) (hw0 : 0 < l.labelLengthMm)
    (hh0 : 0 < l.labelHeightMm) (h : PackInv st) :
    PackInv (placeLabel cfg st l) := by
  rw [placeLabel_stages]
  exact packInv_record hg hw0 hh0
    (packInv_overflow (le_of_lt hh0)
      (packInv_wrap hg (le_of_lt hh0) (packInv_seed hh0 h)))

/-- C2: on every sheet returned by the packer, distinct placed labels
have non-overlapping footprints (shared edges allowed), provided the
configured gap is non-negative and every spec has positive width and
height. -/
theorem packing_no_overlap (setups : List LabelSetup) (cfg : SheetConfig)
    (hg : 0 ≤ cfg.gap)
    (hdims : ∀ s ∈ setups, 0 < s.labelLengthMm ∧ 0 < s.labelHeightMm) :
    ∀ sheet ∈ arrangeLabelsOnSheets setups cfg,
      sheet.labels.Pairwise fun p q => ¬ Overlap p q := by
  have hfold : ∀ (L : List LabelSetup) (st : ArrangeState),
      (∀ l ∈ L, 0 < l.labelLengthMm ∧ 0 < l.labelHeightMm) →
      PackInv st → PackInv (L.foldl (placeLabel cfg) st) := by
    intro L
    induction L with
    | nil => exact fun st _ h => h
    | cons a L ih =>
      intro st hL h
      exact ih _ (fun x hx => hL x (by simp [hx]))
        (packInv_placeLabel hg (hL a (by simp)).1 (hL a (by simp)).2 h)
  have hinit : PackInv (initialArrangeState cfg) := by
    refine ⟨le_refl 0, ?_, List.Pairwise.nil, ?_⟩
    · intro p hp
      simp [initialArrangeState] at hp
    · intro s hs
      simp [initialArrangeState] at hs
  have hfin := hfold (expandQuantities setups) (initialArrangeState cfg)
    (fun x hx => hdims x (mem_expandQuantities hx)) hinit
  obtain ⟨-, -, h3, h4⟩ := hfin
  intro sheet hs
  simp only [arrangeLabelsOnSheets] at hs
  set final := (expandQuantities setups).foldl (placeLabel cfg)
    (initialArrangeState cfg) with hfinal
  by_cases he : final.currentSheet.labels.isEmpty
  · rw [if_pos he] at hs
    exact h4 sheet hs
  · rw [if_neg he] at hs
    rcases List.mem_append.mp hs with hmem | hmem
    · exact h4 sheet hmem
    · rw [List.mem_singleton] at hmem
      subst hmem
      exact h3

/-- C2 (witness): two mixed-size specs pack without overlaps on the
default sheet. -/
theorem packing_no_overlap_witness :
    ((arrangeLabelsOnSheets [smallLabel 2, holedLabel]
      DEFAULT_SHEET).headI.labels).Pairwise fun p q => ¬ Overlap p q :=
  packing_no_overlap [smallLabel 2, holedLabel] DEFAULT_SHEET
    (by norm_num [DEFAULT_SHEET])
    (by intro s hs
        simp only [List.mem_cons, List.not_mem_nil, or_false] at hs
        rcases hs with rfl | rfl <;> norm_num [smallLabel, holedLabel])
    _ (by with_unfolding_all decide)

end LabelExport
